import Mathlib

/-!
Verification of the emotion blending and modulation pipeline of the
voice-first care platform.

The embedded code lives in `src/packages/emotion-engine/app/emotion_blend.py`
(functions `softmax`, `blend_emotions`, `compute_modulation`, `smooth_blend`,
`process_emotion_logits`) and
`src/packages/emotion-engine/app/inference.py` (`_detect_emotion_blend`).

Modelling conventions:
* Python floats are modelled as real numbers.
* Python dictionaries carrying emotion probabilities are modelled as
  association lists `List (String × ℝ)`; a dictionary access `d[k]` that can
  raise `KeyError` is modelled as an `Option`-valued lookup, and functions
  performing such accesses return `Option` results (`none` = the access
  raised).
* The three-element NumPy arrays are modelled as triples `ℝ × ℝ × ℝ`, since
  `EMOTION_LABELS` fixes the length at three.
* Python `round(x, n)` is modelled as rounding half away from the midpoint
  upward at `n` decimal digits (`Mathlib.round`).  Python rounds ties to
  even; the two conventions agree except at exact ties, which none of the
  values appearing below hit.
-/

namespace EmotionEngine

noncomputable section

/-- `EMOTION_LABELS = ["calm", "guarded", "lit"]` from emotion_blend.py. -/
def EMOTION_LABELS : List String := ["calm", "guarded", "lit"]

/-- Python `round(x, 3)`. -/
def round3 (x : ℝ) : ℝ := ((round (x * 1000) : ℤ) : ℝ) / 1000

/-- Python `round(x, 2)`. -/
def round2 (x : ℝ) : ℝ := ((round (x * 100) : ℤ) : ℝ) / 100

/-- Python `round(x, 1)`. -/
def round1 (x : ℝ) : ℝ := ((round (x * 10) : ℤ) : ℝ) / 10

/-- `np.clip(x, 0, 1)` applied to one entry. -/
def clip01 (x : ℝ) : ℝ := max 0 (min x 1)

/-- A Python dictionary mapping emotion labels to floats. -/
abbrev Blend := List (String × ℝ)

/-- Dictionary access `d[k]`, `none` when the key is absent (`KeyError`). -/
def dictGet (d : Blend) (k : String) : Option ℝ :=
  (d.find? fun p => p.1 == k).map Prod.snd

/-- The value stored under `k`, defaulting to 0; used only to state theorems
about dictionaries already known to contain `k`. -/
def getVal (d : Blend) (k : String) : ℝ := (dictGet d k).getD 0

/-- The dictionary `{"calm": c, "guarded": g, "lit": l}` —
the shape `dict(zip(EMOTION_LABELS, probs))` produces. -/
def mkBlend (c g l : ℝ) : Blend := [("calm", c), ("guarded", g), ("lit", l)]

/-- Sum of the values of a blend dictionary. -/
def sumVals (d : Blend) : ℝ := (d.map Prod.snd).sum

/-- `softmax` from emotion_blend.py, specialised to a length-3 input:
`e_x = np.exp(x - np.max(x)); e_x / e_x.sum(axis=0)`. -/
def softmax (x₁ x₂ x₃ : ℝ) : ℝ × ℝ × ℝ :=
  let m := max x₁ (max x₂ x₃)
  let e₁ := Real.exp (x₁ - m)
  let e₂ := Real.exp (x₂ - m)
  let e₃ := Real.exp (x₃ - m)
  (e₁ / (e₁ + e₂ + e₃), e₂ / (e₁ + e₂ + e₃), e₃ / (e₁ + e₂ + e₃))

/-- `blend_emotions(logits, alpha)` from emotion_blend.py:
`probs = softmax(np.array(logits) / alpha); probs = np.clip(probs, 0, 1);
dict(zip(EMOTION_LABELS, probs))`.  The Python default for `alpha` is 0.7;
call sites below pass it explicitly. -/
def blend_emotions (logits : ℝ × ℝ × ℝ) (alpha : ℝ) : Blend :=
  let p := softmax (logits.1 / alpha) (logits.2.1 / alpha) (logits.2.2 / alpha)
  mkBlend (clip01 p.1) (clip01 p.2.1) (clip01 p.2.2)

/-- The modulation parameter bundle returned by `compute_modulation`. -/
structure ModParams where
  tts_pitch_shift : ℝ
  tts_speed_scale : ℝ
  glow_intensity : ℝ
  glow_hue : ℝ
  glow_easing_curve : String

/-- `compute_modulation(blend)` from emotion_blend.py.  The three dictionary
accesses `blend["calm"], blend["guarded"], blend["lit"]` can raise
`KeyError`, hence the `Option` result. -/
def compute_modulation (blend : Blend) : Option ModParams :=
  match dictGet blend "calm", dictGet blend "guarded", dictGet blend "lit" with
  | some calm, some guarded, some lit =>
      some ⟨round3 ((lit - calm) * 0.08),
            round3 (0.9 + lit * 0.2 - guarded * 0.05),
            round2 (0.4 * calm + 0.25 * guarded + 0.9 * lit),
            round1 (120 * lit + 240 * guarded),
            if calm > 0.6 then "sine"
            else if guarded > 0.5 then "ease-in"
            else "cubic"⟩
  | _, _, _ => none

/-- `smooth_blend(prev_blend, new_blend, smoothing)` from emotion_blend.py:
for each key of `EMOTION_LABELS`,
`round((1 - smoothing) * new_blend[key] + smoothing * prev_blend[key], 3)`.
The Python default for `smoothing` is 0.3; call sites pass it explicitly. -/
def smooth_blend (prev_blend new_blend : Blend) (smoothing : ℝ) :
    Option Blend :=
  match dictGet new_blend "calm", dictGet prev_blend "calm",
        dictGet new_blend "guarded", dictGet prev_blend "guarded",
        dictGet new_blend "lit", dictGet prev_blend "lit" with
  | some nc, some pc, some ng, some pg, some nl, some pl =>
      some (mkBlend (round3 ((1 - smoothing) * nc + smoothing * pc))
                    (round3 ((1 - smoothing) * ng + smoothing * pg))
                    (round3 ((1 - smoothing) * nl + smoothing * pl)))
  | _, _, _, _, _, _ => none

/-- `process_emotion_logits(logits, prev_blend)` from emotion_blend.py.
`prev_blend` defaults to `None` in Python; the guard is the Python
truthiness test `if prev_blend`, false for `None` and for the empty
dictionary. -/
def process_emotion_logits (logits : ℝ × ℝ × ℝ) (prev_blend : Option Blend) :
    Option (Blend × ModParams) :=
  let new_blend := blend_emotions logits 0.7
  let maybe_final : Option Blend :=
    match prev_blend with
    | some d =>
        if d.isEmpty then some new_blend else smooth_blend d new_blend 0.3
    | none => some new_blend
  match maybe_final with
  | some final_blend =>
      match compute_modulation final_blend with
      | some modulation => some (final_blend, modulation)
      | none => none
  | none => none

/-- `_detect_emotion_blend(emotion_vector)` from inference.py: first-match
threshold chain over `(calm, guarded, lit)`. -/
def _detect_emotion_blend (v : ℝ × ℝ × ℝ) : String :=
  let calm := v.1
  let guarded := v.2.1
  let lit := v.2.2
  let threshold : ℝ := 0.3
  if calm > threshold ∧ lit > threshold then "hopeful calm"
  else if guarded > threshold ∧ lit > threshold then "guarded optimism"
  else if calm > threshold ∧ guarded > threshold then "resolute peace"
  else if calm > 0.6 then "pure calm"
  else if guarded > 0.6 then "pure guarded"
  else if lit > 0.6 then "pure lit"
  else "neutral blend"

/-- The classification policy as the spec words it (§4.1 `Classify`):
first-match priority order over pairwise thresholds 0.3, then pure states at
0.6 in order calm, guarded, lit, else the neutral default. Written from the
spec, to be compared with `_detect_emotion_blend`. -/
def classifySpec (calm guarded lit : ℝ) : String :=
  if calm > 0.3 ∧ lit > 0.3 then "hopeful calm"
  else if guarded > 0.3 ∧ lit > 0.3 then "guarded optimism"
  else if calm > 0.3 ∧ guarded > 0.3 then "resolute peace"
  else if calm > 0.6 then "pure calm"
  else if guarded > 0.6 then "pure guarded"
  else if lit > 0.6 then "pure lit"
  else "neutral blend"

end

/-! ### Basic evaluation lemmas -/

theorem dictGet_mkBlend_calm (c g l : ℝ) : dictGet (mkBlend c g l) "calm" = some c := by
  simp [dictGet, mkBlend]

theorem dictGet_mkBlend_guarded (c g l : ℝ) : dictGet (mkBlend c g l) "guarded" = some g := by
  simp [dictGet, mkBlend]

theorem dictGet_mkBlend_lit (c g l : ℝ) : dictGet (mkBlend c g l) "lit" = some l := by
  simp [dictGet, mkBlend]

theorem getVal_mkBlend_calm (c g l : ℝ) : getVal (mkBlend c g l) "calm" = c := by
  simp [getVal, dictGet_mkBlend_calm]

theorem getVal_mkBlend_guarded (c g l : ℝ) : getVal (mkBlend c g l) "guarded" = g := by
  simp [getVal, dictGet_mkBlend_guarded]

theorem getVal_mkBlend_lit (c g l : ℝ) : getVal (mkBlend c g l) "lit" = l := by
  simp [getVal, dictGet_mkBlend_lit]

theorem sumVals_mkBlend (c g l : ℝ) : sumVals (mkBlend c g l) = c + g + l := by
  simp [sumVals, mkBlend]; ring

/-! ### Softmax normal form: the max-shift cancels -/

theorem shift_frac (u v w e : ℝ) (he : e ≠ 0) :
    (u / e) / (u / e + v / e + w / e) = u / (u + v + w) := by
  rw [div_add_div_same, div_add_div_same, div_div_eq_mul_div,
    div_mul_cancel₀ _ he]

theorem softmax_fst (x y z : ℝ) :
    (softmax x y z).1 = Real.exp x / (Real.exp x + Real.exp y + Real.exp z) := by
  have he : Real.exp (max x (max y z)) ≠ 0 := (Real.exp_pos _).ne'
  simp only [softmax, Real.exp_sub]
  exact shift_frac _ _ _ _ he

theorem softmax_snd (x y z : ℝ) :
    (softmax x y z).2.1 = Real.exp y / (Real.exp x + Real.exp y + Real.exp z) := by
  have he : Real.exp (max x (max y z)) ≠ 0 := (Real.exp_pos _).ne'
  simp only [softmax, Real.exp_sub]
  rw [show Real.exp x / Real.exp (max x (max y z)) +
        Real.exp y / Real.exp (max x (max y z)) +
        Real.exp z / Real.exp (max x (max y z))
      = Real.exp y / Real.exp (max x (max y z)) +
        Real.exp x / Real.exp (max x (max y z)) +
        Real.exp z / Real.exp (max x (max y z)) from by ring,
    shift_frac _ _ _ _ he]
  ring

theorem softmax_thd (x y z : ℝ) :
    (softmax x y z).2.2 = Real.exp z / (Real.exp x + Real.exp y + Real.exp z) := by
  have he : Real.exp (max x (max y z)) ≠ 0 := (Real.exp_pos _).ne'
  simp only [softmax, Real.exp_sub]
  rw [show Real.exp x / Real.exp (max x (max y z)) +
        Real.exp y / Real.exp (max x (max y z)) +
        Real.exp z / Real.exp (max x (max y z))
      = Real.exp z / Real.exp (max x (max y z)) +
        Real.exp x / Real.exp (max x (max y z)) +
        Real.exp y / Real.exp (max x (max y z)) from by ring,
    shift_frac _ _ _ _ he]
  ring

theorem blend_emotions_eq (a b c alpha : ℝ) :
    blend_emotions (a, b, c) alpha =
      mkBlend
        (clip01 (Real.exp (a / alpha) /
          (Real.exp (a / alpha) + Real.exp (b / alpha) + Real.exp (c / alpha))))
        (clip01 (Real.exp (b / alpha) /
          (Real.exp (a / alpha) + Real.exp (b / alpha) + Real.exp (c / alpha))))
        (clip01 (Real.exp (c / alpha) /
          (Real.exp (a / alpha) + Real.exp (b / alpha) + Real.exp (c / alpha)))) := by
  simp only [blend_emotions, softmax_fst, softmax_snd, softmax_thd]

/-! ### Bounds on softmax components -/

theorem clip01_eq_self {x : ℝ} (h0 : 0 ≤ x) (h1 : x ≤ 1) : clip01 x = x := by
  rw [clip01, min_eq_left h1, max_eq_right h0]

theorem frac01 {t s : ℝ} (ht : 0 < t) (hts : t ≤ s) : 0 ≤ t / s ∧ t / s ≤ 1 :=
  have hs : 0 < s := lt_of_lt_of_le ht hts
  ⟨(div_pos ht hs).le, (div_le_one hs).mpr hts⟩

theorem exp_sum_pos (x y z : ℝ) : 0 < Real.exp x + Real.exp y + Real.exp z := by
  have := Real.exp_pos x
  have := Real.exp_pos y
  have := Real.exp_pos z
  linarith

/-- The output of `blend_emotions` is always a genuine probability
distribution: all three stored values lie in [0,1] and sum to exactly 1
(over the reals), for every sharpness, of either sign. -/
theorem blend_emotions_valid (a b c alpha : ℝ) :
    (0 ≤ getVal (blend_emotions (a, b, c) alpha) "calm" ∧
      getVal (blend_emotions (a, b, c) alpha) "calm" ≤ 1) ∧
    (0 ≤ getVal (blend_emotions (a, b, c) alpha) "guarded" ∧
      getVal (blend_emotions (a, b, c) alpha) "guarded" ≤ 1) ∧
    (0 ≤ getVal (blend_emotions (a, b, c) alpha) "lit" ∧
      getVal (blend_emotions (a, b, c) alpha) "lit" ≤ 1) ∧
    sumVals (blend_emotions (a, b, c) alpha) = 1 := by
  have hs := exp_sum_pos (a / alpha) (b / alpha) (c / alpha)
  have h1 := frac01 (Real.exp_pos (a / alpha))
    (by nlinarith [Real.exp_pos (b / alpha), Real.exp_pos (c / alpha)] :
      Real.exp (a / alpha) ≤
        Real.exp (a / alpha) + Real.exp (b / alpha) + Real.exp (c / alpha))
  have h2 := frac01 (Real.exp_pos (b / alpha))
    (by nlinarith [Real.exp_pos (a / alpha), Real.exp_pos (c / alpha)] :
      Real.exp (b / alpha) ≤
        Real.exp (a / alpha) + Real.exp (b / alpha) + Real.exp (c / alpha))
  have h3 := frac01 (Real.exp_pos (c / alpha))
    (by nlinarith [Real.exp_pos (a / alpha), Real.exp_pos (b / alpha)] :
      Real.exp (c / alpha) ≤
        Real.exp (a / alpha) + Real.exp (b / alpha) + Real.exp (c / alpha))
  rw [blend_emotions_eq, clip01_eq_self h1.1 h1.2, clip01_eq_self h2.1 h2.2,
    clip01_eq_self h3.1 h3.2, getVal_mkBlend_calm, getVal_mkBlend_guarded,
    getVal_mkBlend_lit, sumVals_mkBlend, div_add_div_same, div_add_div_same,
    div_self hs.ne']
  exact ⟨h1, h2, h3, rfl⟩

/-! ### Rounding lemmas -/

theorem round_eq_int {x : ℝ} {n : ℤ} (h1 : (n : ℝ) ≤ x + 1 / 2)
    (h2 : x + 1 / 2 < n + 1) : round x = n := by
  rw [round_eq]
  exact Int.floor_eq_iff.mpr ⟨h1, h2⟩

theorem round3_eval {x : ℝ} {n : ℤ} (h1 : (n : ℝ) ≤ x * 1000 + 1 / 2)
    (h2 : x * 1000 + 1 / 2 < n + 1) : round3 x = n / 1000 := by
  rw [round3, round_eq_int h1 h2]

theorem round2_eval {x : ℝ} {n : ℤ} (h1 : (n : ℝ) ≤ x * 100 + 1 / 2)
    (h2 : x * 100 + 1 / 2 < n + 1) : round2 x = n / 100 := by
  rw [round2, round_eq_int h1 h2]

theorem round1_eval {x : ℝ} {n : ℤ} (h1 : (n : ℝ) ≤ x * 10 + 1 / 2)
    (h2 : x * 10 + 1 / 2 < n + 1) : round1 x = n / 10 := by
  rw [round1, round_eq_int h1 h2]

theorem round3_mono {x y : ℝ} (h : x ≤ y) : round3 x ≤ round3 y := by
  have hr : round (x * 1000) ≤ round (y * 1000) := by
    rw [round_eq, round_eq]
    exact Int.floor_mono (by linarith)
  rw [round3, round3]
  have : ((round (x * 1000) : ℤ) : ℝ) ≤ ((round (y * 1000) : ℤ) : ℝ) := by
    exact_mod_cast hr
  linarith

theorem round2_mono {x y : ℝ} (h : x ≤ y) : round2 x ≤ round2 y := by
  have hr : round (x * 100) ≤ round (y * 100) := by
    rw [round_eq, round_eq]
    exact Int.floor_mono (by linarith)
  rw [round2, round2]
  have : ((round (x * 100) : ℤ) : ℝ) ≤ ((round (y * 100) : ℤ) : ℝ) := by
    exact_mod_cast hr
  linarith

theorem abs_round3_sub (x : ℝ) : |round3 x - x| ≤ 1 / 2000 := by
  have h := abs_sub_round (x * 1000)
  rw [abs_sub_comm] at h
  have hx : round3 x - x = ((round (x * 1000) : ℤ) - x * 1000) / 1000 := by
    rw [round3]; ring
  rw [hx, abs_div, abs_of_pos (by norm_num : (0 : ℝ) < 1000)]
  linarith

/-! ### Evaluation of the mapper and the smoother on canonical blends -/

theorem compute_modulation_mkBlend (c g l : ℝ) :
    compute_modulation (mkBlend c g l) =
      some ⟨round3 ((l - c) * 0.08),
            round3 (0.9 + l * 0.2 - g * 0.05),
            round2 (0.4 * c + 0.25 * g + 0.9 * l),
            round1 (120 * l + 240 * g),
            if c > 0.6 then "sine"
            else if g > 0.5 then "ease-in"
            else "cubic"⟩ := by
  simp only [compute_modulation, dictGet_mkBlend_calm, dictGet_mkBlend_guarded,
    dictGet_mkBlend_lit]

theorem smooth_blend_mkBlend (p₁ p₂ p₃ q₁ q₂ q₃ r : ℝ) :
    smooth_blend (mkBlend p₁ p₂ p₃) (mkBlend q₁ q₂ q₃) r =
      some (mkBlend (round3 ((1 - r) * q₁ + r * p₁))
                    (round3 ((1 - r) * q₂ + r * p₂))
                    (round3 ((1 - r) * q₃ + r * p₃))) := by
  simp only [smooth_blend, dictGet_mkBlend_calm, dictGet_mkBlend_guarded,
    dictGet_mkBlend_lit]

theorem smooth_blend_shape {p q : Blend} {r : ℝ} {s : Blend}
    (h : smooth_blend p q r = some s) : ∃ x y z, s = mkBlend x y z := by
  unfold smooth_blend at h
  split at h
  · exact ⟨_, _, _, (Option.some_injective _ h).symm⟩
  · simp at h

/-! ### Shared concrete evaluations -/

theorem blend_zero_uniform :
    blend_emotions (0, 0, 0) 0.7 = mkBlend (1/3) (1/3) (1/3) := by
  have e0 : (0 : ℝ) / 0.7 = 0 := by norm_num
  have h : clip01 ((1 : ℝ) / (1 + 1 + 1)) = 1/3 := by
    rw [clip01_eq_self (by norm_num) (by norm_num)]; norm_num
  rw [blend_emotions_eq, e0, Real.exp_zero, h]

theorem detect_uniform :
    _detect_emotion_blend ((1 : ℝ)/3, 1/3, 1/3) = "hopeful calm" := by
  norm_num [_detect_emotion_blend]

/-! ### Claims -/

/-- Claim C1: for every triple of real raw scores and every sharpness > 0
(including the default 0.7), the distribution returned by `blend_emotions`
has every component in [0,1] and the three components sum to 1.0 within a
tolerance of 1e-6. -/
theorem C1_normalize_distribution (a b c alpha : ℝ) (_halpha : 0 < alpha) :
    (0 ≤ getVal (blend_emotions (a, b, c) alpha) "calm" ∧
      getVal (blend_emotions (a, b, c) alpha) "calm" ≤ 1) ∧
    (0 ≤ getVal (blend_emotions (a, b, c) alpha) "guarded" ∧
      getVal (blend_emotions (a, b, c) alpha) "guarded" ≤ 1) ∧
    (0 ≤ getVal (blend_emotions (a, b, c) alpha) "lit" ∧
      getVal (blend_emotions (a, b, c) alpha) "lit" ≤ 1) ∧
    |sumVals (blend_emotions (a, b, c) alpha) - 1| ≤ 1 / 1000000 := by
  obtain ⟨h1, h2, h3, hsum⟩ := blend_emotions_valid a b c alpha
  exact ⟨h1, h2, h3, by rw [hsum]; norm_num⟩

/-- Witness for C1 at raw scores (0,0,0) and sharpness 1. -/
theorem C1_normalize_distribution_witness :
    (0 ≤ getVal (blend_emotions (0, 0, 0) 1) "calm" ∧
      getVal (blend_emotions (0, 0, 0) 1) "calm" ≤ 1) ∧
    (0 ≤ getVal (blend_emotions (0, 0, 0) 1) "guarded" ∧
      getVal (blend_emotions (0, 0, 0) 1) "guarded" ≤ 1) ∧
    (0 ≤ getVal (blend_emotions (0, 0, 0) 1) "lit" ∧
      getVal (blend_emotions (0, 0, 0) 1) "lit" ≤ 1) ∧
    |sumVals (blend_emotions (0, 0, 0) 1) - 1| ≤ 1 / 1000000 :=
  C1_normalize_distribution 0 0 0 1 (by norm_num)

/-- Claim C2: `_detect_emotion_blend` evaluates thresholds first-match in the
fixed priority order the spec states (pairwise 0.3 branches for hopeful
calm, guarded optimism, resolute peace, then single-category 0.6 branches in
order calm, guarded, lit, else the neutral default), and on the distribution
(calm 0.35, guarded 0.1, lit 0.4) it returns "hopeful calm". -/
theorem C2_classifier_priority :
    (∀ c g l : ℝ, _detect_emotion_blend (c, g, l) = classifySpec c g l) ∧
    _detect_emotion_blend (0.35, 0.1, 0.4) = "hopeful calm" := by
  refine ⟨fun c g l => rfl, ?_⟩
  norm_num [_detect_emotion_blend]

/-- Claim C3 counterexample: raw scores (0,0,0) normalize to the uniform
distribution (1/3, 1/3, 1/3), but the classifier does NOT return
"neutral blend" on it — 1/3 exceeds the 0.3 pairwise threshold, so the
first branch fires. -/
theorem C3_counterexample :
    blend_emotions (0, 0, 0) 0.7 = mkBlend (1/3) (1/3) (1/3) ∧
    _detect_emotion_blend ((1 : ℝ)/3, 1/3, 1/3) ≠ "neutral blend" := by
  refine ⟨blend_zero_uniform, ?_⟩
  rw [detect_uniform]
  decide

/-- Claim C3 as amended: raw scores (0,0,0) normalize to exactly the uniform
distribution, and the classifier applied to it returns "hopeful calm"
(both calm and lit exceed the 0.3 threshold), not "neutral blend". -/
theorem C3_uniform_label :
    blend_emotions (0, 0, 0) 0.7 = mkBlend (1/3) (1/3) (1/3) ∧
    _detect_emotion_blend ((1 : ℝ)/3, 1/3, 1/3) = "hopeful calm" :=
  ⟨blend_zero_uniform, detect_uniform⟩

theorem round3_exact {x : ℝ} {n : ℤ} (h : x * 1000 = (n : ℝ)) : round3 x = x := by
  have hr : round (x * 1000) = n := by rw [h, round_intCast]
  rw [round3, hr, eq_comm, eq_div_iff (by norm_num : (1000 : ℝ) ≠ 0)]
  exact h

theorem round2_exact {x : ℝ} {n : ℤ} (h : x * 100 = (n : ℝ)) : round2 x = x := by
  have hr : round (x * 100) = n := by rw [h, round_intCast]
  rw [round2, hr, eq_comm, eq_div_iff (by norm_num : (100 : ℝ) ≠ 0)]
  exact h

theorem round1_exact {x : ℝ} {n : ℤ} (h : x * 10 = (n : ℝ)) : round1 x = x := by
  have hr : round (x * 10) = n := by rw [h, round_intCast]
  rw [round1, hr, eq_comm, eq_div_iff (by norm_num : (10 : ℝ) ≠ 0)]
  exact h

theorem smooth_retention_two :
    smooth_blend (mkBlend 1 0 0) (mkBlend 0 1 0) 2 = some (mkBlend 2 (-1) 0) := by
  have h1 : round3 ((1 - 2 : ℝ) * 0 + 2 * 1) = 2 := by
    rw [show ((1 - 2 : ℝ) * 0 + 2 * 1) = 2 from by norm_num]
    exact @round3_exact 2 2000 (by norm_num)
  have h2 : round3 ((1 - 2 : ℝ) * 1 + 2 * 0) = -1 := by
    rw [show ((1 - 2 : ℝ) * 1 + 2 * 0) = -1 from by norm_num]
    exact @round3_exact (-1) (-1000) (by norm_num)
  have h3 : round3 ((1 - 2 : ℝ) * 0 + 2 * 0) = 0 := by
    rw [show ((1 - 2 : ℝ) * 0 + 2 * 0) = 0 from by norm_num]
    exact @round3_exact 0 0 (by norm_num)
  rw [smooth_blend_mkBlend, h1, h2, h3]

theorem blend_negative_sharpness_uniform :
    blend_emotions (0, 0, 0) (-1) = mkBlend (1/3) (1/3) (1/3) := by
  have e0 : (0 : ℝ) / (-1) = 0 := by norm_num
  have h : clip01 ((1 : ℝ) / (1 + 1 + 1)) = 1/3 := by
    rw [clip01_eq_self (by norm_num) (by norm_num)]; norm_num
  rw [blend_emotions_eq, e0, Real.exp_zero, h]

/-- Claim C4 counterexample: prev = cur = (0.3334, 0.3334, 0.3332) sums to
exactly 1 and retention 0.3 lies in [0,1], yet the smoothed output is
(0.333, 0.333, 0.333), whose sum 0.999 misses 1.0 by far more than 1e-6 —
the per-component rounding to 3 decimals breaks the claimed tolerance. -/
theorem C4_counterexample :
    sumVals (mkBlend 0.3334 0.3334 0.3332) = 1 ∧
    smooth_blend (mkBlend 0.3334 0.3334 0.3332) (mkBlend 0.3334 0.3334 0.3332) 0.3
      = some (mkBlend 0.333 0.333 0.333) ∧
    ¬ (|sumVals (mkBlend 0.333 0.333 0.333) - 1| ≤ 1 / 1000000) := by
  have h1 : round3 ((1 - 0.3) * 0.3334 + 0.3 * 0.3334 : ℝ) = 333 / 1000 :=
    @round3_eval _ 333 (by norm_num) (by norm_num)
  have h2 : round3 ((1 - 0.3) * 0.3332 + 0.3 * 0.3332 : ℝ) = 333 / 1000 :=
    @round3_eval _ 333 (by norm_num) (by norm_num)
  refine ⟨by rw [sumVals_mkBlend]; norm_num, ?_, ?_⟩
  · rw [smooth_blend_mkBlend, h1, h2]
    norm_num [mkBlend]
  · rw [sumVals_mkBlend,
      show (0.333 + 0.333 + 0.333 : ℝ) - 1 = -(1/1000) from by norm_num,
      abs_neg, abs_of_pos (by norm_num : (0 : ℝ) < 1/1000)]
    norm_num

/-- Claim C4 as amended: under the claim's hypotheses the smoothed output is
the componentwise 3-decimal rounding of the affine combination (no
renormalization step exists), and its components sum to 1.0 within 1.6e-3 —
each of the three roundings can move the sum by up to 5e-4, so the claimed
1e-6 tolerance only survives with this coarser bound. -/
theorem C4_smooth_sum_tolerance (p₁ p₂ p₃ q₁ q₂ q₃ r : ℝ)
    (hp : |p₁ + p₂ + p₃ - 1| ≤ 1 / 1000000)
    (hq : |q₁ + q₂ + q₃ - 1| ≤ 1 / 1000000)
    (hr0 : 0 ≤ r) (hr1 : r ≤ 1) :
    smooth_blend (mkBlend p₁ p₂ p₃) (mkBlend q₁ q₂ q₃) r =
      some (mkBlend (round3 ((1 - r) * q₁ + r * p₁))
                    (round3 ((1 - r) * q₂ + r * p₂))
                    (round3 ((1 - r) * q₃ + r * p₃))) ∧
    |round3 ((1 - r) * q₁ + r * p₁) + round3 ((1 - r) * q₂ + r * p₂) +
      round3 ((1 - r) * q₃ + r * p₃) - 1| ≤ 16 / 10000 := by
  refine ⟨smooth_blend_mkBlend p₁ p₂ p₃ q₁ q₂ q₃ r, ?_⟩
  obtain ⟨hp1, hp2⟩ := abs_le.mp hp
  obtain ⟨hq1, hq2⟩ := abs_le.mp hq
  obtain ⟨ha1, ha2⟩ := abs_le.mp (abs_round3_sub ((1 - r) * q₁ + r * p₁))
  obtain ⟨hb1, hb2⟩ := abs_le.mp (abs_round3_sub ((1 - r) * q₂ + r * p₂))
  obtain ⟨hc1, hc2⟩ := abs_le.mp (abs_round3_sub ((1 - r) * q₃ + r * p₃))
  have t1 : r * (p₁ + p₂ + p₃ - 1) ≤ 1 / 1000000 := by nlinarith
  have t2 : -(1 / 1000000 : ℝ) ≤ r * (p₁ + p₂ + p₃ - 1) := by nlinarith
  have t3 : (1 - r) * (q₁ + q₂ + q₃ - 1) ≤ 1 / 1000000 := by nlinarith
  have t4 : -(1 / 1000000 : ℝ) ≤ (1 - r) * (q₁ + q₂ + q₃ - 1) := by nlinarith
  rw [abs_le]
  constructor <;> nlinarith

/-- Witness for C4 at prev = cur = (0.5, 0.3, 0.2) and retention 0.3. -/
theorem C4_smooth_sum_tolerance_witness :
    smooth_blend (mkBlend 0.5 0.3 0.2) (mkBlend 0.5 0.3 0.2) 0.3 =
      some (mkBlend (round3 ((1 - 0.3) * 0.5 + 0.3 * 0.5))
                    (round3 ((1 - 0.3) * 0.3 + 0.3 * 0.3))
                    (round3 ((1 - 0.3) * 0.2 + 0.3 * 0.2))) ∧
    |round3 ((1 - 0.3) * 0.5 + 0.3 * 0.5) + round3 ((1 - 0.3) * 0.3 + 0.3 * 0.3) +
      round3 ((1 - 0.3) * 0.2 + 0.3 * 0.2) - 1| ≤ 16 / 10000 :=
  C4_smooth_sum_tolerance 0.5 0.3 0.2 0.5 0.3 0.2 0.3
    (by norm_num [abs_of_nonneg]) (by norm_num [abs_of_nonneg])
    (by norm_num) (by norm_num)

/-- Claim C5 counterexample: at retention 0 the smoother does NOT return the
current distribution exactly — the 3-decimal rounding changes the component
0.3334 to 0.333. -/
theorem C5_counterexample :
    smooth_blend (mkBlend 1 0 0) (mkBlend 0.3334 0.3333 0.3333) 0
      ≠ some (mkBlend 0.3334 0.3333 0.3333) := by
  have h1 : round3 ((1 - 0 : ℝ) * 0.3334 + 0 * 1) = 333 / 1000 :=
    @round3_eval _ 333 (by norm_num) (by norm_num)
  rw [smooth_blend_mkBlend, h1]
  intro hcontra
  have := (List.cons.injEq _ _ _ _).mp
    ((Option.some_injective _ hcontra))
  have hx : (333 / 1000 : ℝ) = 0.3334 := congrArg Prod.snd this.1
  norm_num at hx

/-- Claim C5 as amended: for every pair of canonical blends,
`smooth_blend prev cur 0` equals `cur` with each component rounded to three
decimals, and `smooth_blend prev cur 1` equals `prev` likewise rounded;
exact equality holds only when the components are already 3-decimal values. -/
theorem C5_smooth_endpoints (p₁ p₂ p₃ q₁ q₂ q₃ : ℝ) :
    smooth_blend (mkBlend p₁ p₂ p₃) (mkBlend q₁ q₂ q₃) 0
      = some (mkBlend (round3 q₁) (round3 q₂) (round3 q₃)) ∧
    smooth_blend (mkBlend p₁ p₂ p₃) (mkBlend q₁ q₂ q₃) 1
      = some (mkBlend (round3 p₁) (round3 p₂) (round3 p₃)) := by
  constructor <;> rw [smooth_blend_mkBlend] <;> norm_num

/-- Claim C6 counterexample: neither tunable is validated.  With sharpness
-1 (negative) `blend_emotions` happily produces the uniform distribution
rather than failing with InvalidParameter, and with retention 2 (outside
[0,1]) `smooth_blend` happily extrapolates to (2, -1, 0) rather than
failing. -/
theorem C6_counterexample :
    blend_emotions (0, 0, 0) (-1) = mkBlend (1/3) (1/3) (1/3) ∧
    smooth_blend (mkBlend 1 0 0) (mkBlend 0 1 0) 2 = some (mkBlend 2 (-1) 0) :=
  ⟨blend_negative_sharpness_uniform, smooth_retention_two⟩

/-- Claim C6 as amended: the code performs no parameter validation.  For
every negative sharpness `blend_emotions` still returns a well-formed
probability distribution (components in [0,1] summing to exactly 1) instead
of raising, and `smooth_blend` with retention 2 returns an extrapolated
result whose calm component, 2, is itself outside [0,1]. -/
theorem C6_no_parameter_validation (a b c alpha : ℝ) (_halpha : alpha < 0) :
    ((0 ≤ getVal (blend_emotions (a, b, c) alpha) "calm" ∧
        getVal (blend_emotions (a, b, c) alpha) "calm" ≤ 1) ∧
      (0 ≤ getVal (blend_emotions (a, b, c) alpha) "guarded" ∧
        getVal (blend_emotions (a, b, c) alpha) "guarded" ≤ 1) ∧
      (0 ≤ getVal (blend_emotions (a, b, c) alpha) "lit" ∧
        getVal (blend_emotions (a, b, c) alpha) "lit" ≤ 1) ∧
      sumVals (blend_emotions (a, b, c) alpha) = 1) ∧
    smooth_blend (mkBlend 1 0 0) (mkBlend 0 1 0) 2 = some (mkBlend 2 (-1) 0) :=
  ⟨blend_emotions_valid a b c alpha, smooth_retention_two⟩

/-- Witness for C6 at raw scores (0,0,0) and sharpness -1. -/
theorem C6_no_parameter_validation_witness :
    ((0 ≤ getVal (blend_emotions (0, 0, 0) (-1)) "calm" ∧
        getVal (blend_emotions (0, 0, 0) (-1)) "calm" ≤ 1) ∧
      (0 ≤ getVal (blend_emotions (0, 0, 0) (-1)) "guarded" ∧
        getVal (blend_emotions (0, 0, 0) (-1)) "guarded" ≤ 1) ∧
      (0 ≤ getVal (blend_emotions (0, 0, 0) (-1)) "lit" ∧
        getVal (blend_emotions (0, 0, 0) (-1)) "lit" ≤ 1) ∧
      sumVals (blend_emotions (0, 0, 0) (-1)) = 1) ∧
    smooth_blend (mkBlend 1 0 0) (mkBlend 0 1 0) 2 = some (mkBlend 2 (-1) 0) :=
  C6_no_parameter_validation 0 0 0 (-1) (by norm_num)

/-! ### Corner evaluations of the modulation mapper -/

theorem modulation_calm_corner :
    compute_modulation (mkBlend 1 0 0) = some ⟨-0.08, 0.9, 0.4, 0, "sine"⟩ := by
  have h1 : round3 ((0 - 1 : ℝ) * 0.08) = -0.08 := by
    rw [show ((0 - 1 : ℝ) * 0.08) = -0.08 from by norm_num]
    exact @round3_exact (-0.08) (-80) (by norm_num)
  have h2 : round3 ((0.9 + 0 * 0.2 - 0 * 0.05 : ℝ)) = 0.9 := by
    rw [show (0.9 + 0 * 0.2 - 0 * 0.05 : ℝ) = 0.9 from by norm_num]
    exact @round3_exact 0.9 900 (by norm_num)
  have h3 : round2 ((0.4 * 1 + 0.25 * 0 + 0.9 * 0 : ℝ)) = 0.4 := by
    rw [show (0.4 * 1 + 0.25 * 0 + 0.9 * 0 : ℝ) = 0.4 from by norm_num]
    exact @round2_exact 0.4 40 (by norm_num)
  have h4 : round1 ((120 * 0 + 240 * 0 : ℝ)) = 0 := by
    rw [show (120 * 0 + 240 * 0 : ℝ) = 0 from by norm_num]
    exact @round1_exact 0 0 (by norm_num)
  rw [compute_modulation_mkBlend, h1, h2, h3, h4,
    if_pos (by norm_num : (1 : ℝ) > 0.6)]

theorem modulation_guarded_corner :
    compute_modulation (mkBlend 0 1 0) = some ⟨0, 0.85, 0.25, 240, "ease-in"⟩ := by
  have h1 : round3 ((0 - 0 : ℝ) * 0.08) = 0 := by
    rw [show ((0 - 0 : ℝ) * 0.08) = 0 from by norm_num]
    exact @round3_exact 0 0 (by norm_num)
  have h2 : round3 ((0.9 + 0 * 0.2 - 1 * 0.05 : ℝ)) = 0.85 := by
    rw [show (0.9 + 0 * 0.2 - 1 * 0.05 : ℝ) = 0.85 from by norm_num]
    exact @round3_exact 0.85 850 (by norm_num)
  have h3 : round2 ((0.4 * 0 + 0.25 * 1 + 0.9 * 0 : ℝ)) = 0.25 := by
    rw [show (0.4 * 0 + 0.25 * 1 + 0.9 * 0 : ℝ) = 0.25 from by norm_num]
    exact @round2_exact 0.25 25 (by norm_num)
  have h4 : round1 ((120 * 0 + 240 * 1 : ℝ)) = 240 := by
    rw [show (120 * 0 + 240 * 1 : ℝ) = 240 from by norm_num]
    exact @round1_exact 240 2400 (by norm_num)
  rw [compute_modulation_mkBlend, h1, h2, h3, h4,
    if_neg (by norm_num : ¬ ((0 : ℝ) > 0.6)),
    if_pos (by norm_num : (1 : ℝ) > 0.5)]

theorem modulation_lit_corner :
    compute_modulation (mkBlend 0 0 1) = some ⟨0.08, 1.1, 0.9, 120, "cubic"⟩ := by
  have h1 : round3 ((1 - 0 : ℝ) * 0.08) = 0.08 := by
    rw [show ((1 - 0 : ℝ) * 0.08) = 0.08 from by norm_num]
    exact @round3_exact 0.08 80 (by norm_num)
  have h2 : round3 ((0.9 + 1 * 0.2 - 0 * 0.05 : ℝ)) = 1.1 := by
    rw [show (0.9 + 1 * 0.2 - 0 * 0.05 : ℝ) = 1.1 from by norm_num]
    exact @round3_exact 1.1 1100 (by norm_num)
  have h3 : round2 ((0.4 * 0 + 0.25 * 0 + 0.9 * 1 : ℝ)) = 0.9 := by
    rw [show (0.4 * 0 + 0.25 * 0 + 0.9 * 1 : ℝ) = 0.9 from by norm_num]
    exact @round2_exact 0.9 90 (by norm_num)
  have h4 : round1 ((120 * 1 + 240 * 0 : ℝ)) = 120 := by
    rw [show (120 * 1 + 240 * 0 : ℝ) = 120 from by norm_num]
    exact @round1_exact 120 1200 (by norm_num)
  rw [compute_modulation_mkBlend, h1, h2, h3, h4,
    if_neg (by norm_num : ¬ ((0 : ℝ) > 0.6)),
    if_neg (by norm_num : ¬ ((0 : ℝ) > 0.5))]

/-- Claim C7 counterexample: on the malformed blend (calm 2, guarded -1,
lit 0) — probabilities far outside [0,1] — `compute_modulation` does not
fail with InvalidDistribution; the arithmetic proceeds and returns a full
parameter bundle. -/
theorem C7_counterexample :
    compute_modulation (mkBlend 2 (-1) 0) =
      some ⟨-0.16, 0.95, 0.55, -240, "sine"⟩ := by
  have h1 : round3 ((0 - 2 : ℝ) * 0.08) = -0.16 := by
    rw [show ((0 - 2 : ℝ) * 0.08) = -0.16 from by norm_num]
    exact @round3_exact (-0.16) (-160) (by norm_num)
  have h2 : round3 ((0.9 + 0 * 0.2 - -1 * 0.05 : ℝ)) = 0.95 := by
    rw [show (0.9 + 0 * 0.2 - -1 * 0.05 : ℝ) = 0.95 from by norm_num]
    exact @round3_exact 0.95 950 (by norm_num)
  have h3 : round2 ((0.4 * 2 + 0.25 * -1 + 0.9 * 0 : ℝ)) = 0.55 := by
    rw [show (0.4 * 2 + 0.25 * -1 + 0.9 * 0 : ℝ) = 0.55 from by norm_num]
    exact @round2_exact 0.55 55 (by norm_num)
  have h4 : round1 ((120 * 0 + 240 * -1 : ℝ)) = -240 := by
    rw [show (120 * 0 + 240 * -1 : ℝ) = -240 from by norm_num]
    exact @round1_exact (-240) (-2400) (by norm_num)
  rw [compute_modulation_mkBlend, h1, h2, h3, h4,
    if_pos (by norm_num : (2 : ℝ) > 0.6)]

/-- Claim C7 as amended: `compute_modulation` performs no validation of its
input distribution.  It succeeds on every blend carrying the three keys,
whatever the values — including out-of-range ones — and an input missing a
key fails with a KeyError (modelled `none`), not with an InvalidDistribution
condition. -/
theorem C7_no_distribution_validation (c g l x y : ℝ) :
    (compute_modulation (mkBlend c g l)).isSome = true ∧
    compute_modulation [("calm", x), ("guarded", y)] = none := by
  constructor
  · rw [compute_modulation_mkBlend]; rfl
  · rfl

/-! ### Unclipped component form of the blend and strict monotonicity -/

theorem exp_le_sum_fst (u v w : ℝ) :
    Real.exp u ≤ Real.exp u + Real.exp v + Real.exp w := by
  nlinarith [Real.exp_pos v, Real.exp_pos w]

theorem getVal_blend_calm (a b c alpha : ℝ) :
    getVal (blend_emotions (a, b, c) alpha) "calm" =
      Real.exp (a / alpha) /
        (Real.exp (a / alpha) + Real.exp (b / alpha) + Real.exp (c / alpha)) := by
  rw [blend_emotions_eq, getVal_mkBlend_calm]
  have h := frac01 (Real.exp_pos (a / alpha)) (exp_le_sum_fst (a / alpha) (b / alpha) (c / alpha))
  exact clip01_eq_self h.1 h.2

theorem getVal_blend_guarded (a b c alpha : ℝ) :
    getVal (blend_emotions (a, b, c) alpha) "guarded" =
      Real.exp (b / alpha) /
        (Real.exp (a / alpha) + Real.exp (b / alpha) + Real.exp (c / alpha)) := by
  rw [blend_emotions_eq, getVal_mkBlend_guarded]
  have hle : Real.exp (b / alpha) ≤
      Real.exp (a / alpha) + Real.exp (b / alpha) + Real.exp (c / alpha) := by
    nlinarith [Real.exp_pos (a / alpha), Real.exp_pos (c / alpha)]
  have h := frac01 (Real.exp_pos (b / alpha)) hle
  exact clip01_eq_self h.1 h.2

theorem getVal_blend_lit (a b c alpha : ℝ) :
    getVal (blend_emotions (a, b, c) alpha) "lit" =
      Real.exp (c / alpha) /
        (Real.exp (a / alpha) + Real.exp (b / alpha) + Real.exp (c / alpha)) := by
  rw [blend_emotions_eq, getVal_mkBlend_lit]
  have hle : Real.exp (c / alpha) ≤
      Real.exp (a / alpha) + Real.exp (b / alpha) + Real.exp (c / alpha) := by
    nlinarith [Real.exp_pos (a / alpha), Real.exp_pos (b / alpha)]
  have h := frac01 (Real.exp_pos (c / alpha)) hle
  exact clip01_eq_self h.1 h.2

theorem frac_strictMono {t₁ t₂ K : ℝ} (ht : 0 < t₁) (hK : 0 < K) (h : t₁ < t₂) :
    t₁ / (t₁ + K) < t₂ / (t₂ + K) := by
  rw [div_lt_div_iff₀ (by linarith) (by linarith)]
  nlinarith

theorem exp_div_lt_exp_div {x y alpha : ℝ} (halpha : 0 < alpha) (h : x < y) :
    Real.exp (x / alpha) < Real.exp (y / alpha) := by
  apply Real.exp_lt_exp.mpr
  rw [div_lt_div_iff₀ halpha halpha]
  exact mul_lt_mul_of_pos_right h halpha

/-- Claim C8: for every sharpness > 0, the normalizer is strictly monotone
in each coordinate — raising one raw score while fixing the other two
strictly raises that category's resulting probability. -/
theorem C8_blend_strict_mono (a₁ a₂ b₁ b₂ c₁ c₂ alpha : ℝ) (halpha : 0 < alpha) :
    (a₁ < a₂ → getVal (blend_emotions (a₁, b₁, c₁) alpha) "calm"
      < getVal (blend_emotions (a₂, b₁, c₁) alpha) "calm") ∧
    (b₁ < b₂ → getVal (blend_emotions (a₁, b₁, c₁) alpha) "guarded"
      < getVal (blend_emotions (a₁, b₂, c₁) alpha) "guarded") ∧
    (c₁ < c₂ → getVal (blend_emotions (a₁, b₁, c₁) alpha) "lit"
      < getVal (blend_emotions (a₁, b₁, c₂) alpha) "lit") := by
  refine ⟨fun h => ?_, fun h => ?_, fun h => ?_⟩
  · rw [getVal_blend_calm, getVal_blend_calm, add_assoc, add_assoc]
    exact frac_strictMono (Real.exp_pos _)
      (by positivity) (exp_div_lt_exp_div halpha h)
  · rw [getVal_blend_guarded, getVal_blend_guarded,
      show Real.exp (a₁ / alpha) + Real.exp (b₁ / alpha) + Real.exp (c₁ / alpha)
        = Real.exp (b₁ / alpha) + (Real.exp (a₁ / alpha) + Real.exp (c₁ / alpha))
        from by ring,
      show Real.exp (a₁ / alpha) + Real.exp (b₂ / alpha) + Real.exp (c₁ / alpha)
        = Real.exp (b₂ / alpha) + (Real.exp (a₁ / alpha) + Real.exp (c₁ / alpha))
        from by ring]
    exact frac_strictMono (Real.exp_pos _)
      (by positivity) (exp_div_lt_exp_div halpha h)
  · rw [getVal_blend_lit, getVal_blend_lit,
      show Real.exp (a₁ / alpha) + Real.exp (b₁ / alpha) + Real.exp (c₁ / alpha)
        = Real.exp (c₁ / alpha) + (Real.exp (a₁ / alpha) + Real.exp (b₁ / alpha))
        from by ring,
      show Real.exp (a₁ / alpha) + Real.exp (b₁ / alpha) + Real.exp (c₂ / alpha)
        = Real.exp (c₂ / alpha) + (Real.exp (a₁ / alpha) + Real.exp (b₁ / alpha))
        from by ring]
    exact frac_strictMono (Real.exp_pos _)
      (by positivity) (exp_div_lt_exp_div halpha h)

/-- Witness for C8 at raw scores 0 < 1 in each coordinate and sharpness 1. -/
theorem C8_blend_strict_mono_witness :
    getVal (blend_emotions (0, 0, 0) 1) "calm"
      < getVal (blend_emotions (1, 0, 0) 1) "calm" ∧
    getVal (blend_emotions (0, 0, 0) 1) "guarded"
      < getVal (blend_emotions (0, 1, 0) 1) "guarded" ∧
    getVal (blend_emotions (0, 0, 0) 1) "lit"
      < getVal (blend_emotions (0, 0, 1) 1) "lit" :=
  ⟨(C8_blend_strict_mono 0 1 0 1 0 1 1 (by norm_num)).1 (by norm_num),
   (C8_blend_strict_mono 0 1 0 1 0 1 1 (by norm_num)).2.1 (by norm_num),
   (C8_blend_strict_mono 0 1 0 1 0 1 1 (by norm_num)).2.2 (by norm_num)⟩

/-- Claim C9 counterexample: at the calm corner the glow intensity is 0.4,
which is NOT the lowest achievable weighted value — the guarded corner
yields 0.25. -/
theorem C9_counterexample :
    compute_modulation (mkBlend 1 0 0) = some ⟨-0.08, 0.9, 0.4, 0, "sine"⟩ ∧
    compute_modulation (mkBlend 0 1 0) = some ⟨0, 0.85, 0.25, 240, "ease-in"⟩ ∧
    (0.25 : ℝ) < 0.4 :=
  ⟨modulation_calm_corner, modulation_guarded_corner, by norm_num⟩

/-- Claim C9 as amended: the calm corner gives pitch shift -0.08 (the most
negative achievable over valid distributions), easing "sine", and glow 0.4 —
which is not the minimum weighted glow (the guarded corner reaches 0.25);
the lit corner gives pitch 0.08 (the positive maximum), the highest glow
0.9, and easing "cubic". -/
theorem C9_corner_modulation :
    compute_modulation (mkBlend 1 0 0) = some ⟨-0.08, 0.9, 0.4, 0, "sine"⟩ ∧
    compute_modulation (mkBlend 0 0 1) = some ⟨0.08, 1.1, 0.9, 120, "cubic"⟩ ∧
    (∀ c g l : ℝ, 0 ≤ c → 0 ≤ g → 0 ≤ l → c + g + l = 1 →
      ∀ m : ModParams, compute_modulation (mkBlend c g l) = some m →
        -0.08 ≤ m.tts_pitch_shift ∧ m.tts_pitch_shift ≤ 0.08 ∧
        m.glow_intensity ≤ 0.9) := by
  refine ⟨modulation_calm_corner, modulation_lit_corner, ?_⟩
  intro c g l hc hg hl hsum m hm
  rw [compute_modulation_mkBlend] at hm
  obtain rfl := (Option.some_injective _ hm).symm
  dsimp only
  have hlc1 : (-0.08 : ℝ) ≤ (l - c) * 0.08 := by nlinarith
  have hlc2 : (l - c) * 0.08 ≤ 0.08 := by nlinarith
  have hg9 : 0.4 * c + 0.25 * g + 0.9 * l ≤ 0.9 := by nlinarith
  have e1 : round3 (-0.08 : ℝ) = -0.08 := @round3_exact (-0.08) (-80) (by norm_num)
  have e2 : round3 (0.08 : ℝ) = 0.08 := @round3_exact 0.08 80 (by norm_num)
  have e3 : round2 (0.9 : ℝ) = 0.9 := @round2_exact 0.9 90 (by norm_num)
  exact ⟨e1.symm.trans_le (round3_mono hlc1),
    (round3_mono hlc2).trans e2.le, (round2_mono hg9).trans e3.le⟩

/-- Witness for C9, discharging the quantified boundedness part at the calm
corner distribution (1, 0, 0). -/
theorem C9_corner_modulation_witness :
    -0.08 ≤ (ModParams.mk (-0.08) 0.9 0.4 0 "sine").tts_pitch_shift ∧
    (ModParams.mk (-0.08) 0.9 0.4 0 "sine").tts_pitch_shift ≤ 0.08 ∧
    (ModParams.mk (-0.08) 0.9 0.4 0 "sine").glow_intensity ≤ 0.9 :=
  C9_corner_modulation.2.2 1 0 0 (by norm_num) (by norm_num) (by norm_num)
    (by norm_num) (ModParams.mk (-0.08) 0.9 0.4 0 "sine") C9_corner_modulation.1

/-- Claim C10: the pipeline entry point tests the previous distribution for
Python truthiness, not absence — both `None` and the empty dictionary skip
smoothing and return the raw normalized blend unchanged, while any
non-empty dictionary triggers smoothing with the default retention 0.3. -/
theorem C10_prev_truthiness (a b c : ℝ) :
    (process_emotion_logits (a, b, c) none).map Prod.fst
        = some (blend_emotions (a, b, c) 0.7) ∧
    (process_emotion_logits (a, b, c) (some [])).map Prod.fst
        = some (blend_emotions (a, b, c) 0.7) ∧
    (∀ d : Blend, d ≠ [] →
      (process_emotion_logits (a, b, c) (some d)).map Prod.fst
        = smooth_blend d (blend_emotions (a, b, c) 0.7) 0.3) := by
  have hxyz := blend_emotions_eq a b c 0.7
  refine ⟨?_, ?_, ?_⟩
  · simp [process_emotion_logits, hxyz, compute_modulation_mkBlend]
  · simp [process_emotion_logits, hxyz, compute_modulation_mkBlend]
  · intro d hd
    have hde : d.isEmpty = false := by
      cases d with
      | nil => exact absurd rfl hd
      | cons p t => rfl
    cases hsm : smooth_blend d (blend_emotions (a, b, c) 0.7) 0.3 with
    | none => simp [process_emotion_logits, hde, hsm]
    | some s =>
        obtain ⟨x, y, z, rfl⟩ := smooth_blend_shape hsm
        simp [process_emotion_logits, hde, hsm, compute_modulation_mkBlend]

/-- Witness for C10: a non-empty previous dictionary triggers smoothing. -/
theorem C10_prev_truthiness_witness :
    (process_emotion_logits (0, 0, 0) (some (mkBlend 1 0 0))).map Prod.fst
      = smooth_blend (mkBlend 1 0 0) (blend_emotions (0, 0, 0) 0.7) 0.3 :=
  (C10_prev_truthiness 0 0 0).2.2 (mkBlend 1 0 0) (by simp [mkBlend])
